import Mathlib

/-!
Shallow embedding of the event-spark interaction core: the Decision Store
(src/lib/storage.ts), the Swipe Deck Controller (src/components/SwipeStack.tsx),
the Card Motion Engine (src/components/EventCard/index.tsx) and the
getEventsByIds boundary of the Item Source (src/lib/supabase.ts), together
with theorems settling the frozen claims about them.
-/

namespace EventSpark

/-- Swipe direction, from src/lib/types.ts: the union of the literals
left and right. -/
inductive SwipeDirection : Type
  | left
  | right
deriving DecidableEq, Repr

/-- Event category, from the closed enumeration EventCategorySchema in
src/lib/types.ts. -/
inductive EventCategory : Type
  | music
  | food
  | market
  | art
  | community
  | sport
  | workshop
  | festival
  | other
deriving DecidableEq, Repr

/-- Event record, from EventSchema in src/lib/types.ts. Nullable columns are
Option; timestamps are kept as the ISO strings the code carries. -/
structure Event : Type where
  id : String
  title : String
  description : Option String
  image_url : Option String
  start_date : String
  end_date : Option String
  location : Option String
  venue_name : Option String
  category : Option EventCategory
  ticket_url : Option String
  is_free : Bool
  price : Option String
  created_at : String
  updated_at : String
deriving DecidableEq, Repr

/-- Concrete event used to instantiate theorems at specific inputs. -/
def testEvent (id : String) : Event :=
  { id := id
    title := "Test Event"
    description := none
    image_url := none
    start_date := "2026-01-25T12:00:00.000Z"
    end_date := none
    location := none
    venue_name := none
    category := some .other
    ticket_url := none
    is_free := true
    price := none
    created_at := "2026-01-01T00:00:00.000Z"
    updated_at := "2026-01-01T00:00:00.000Z" }

/-! ## JSON layer of the Decision Store

The storage module persists each id set as a JSON array of strings under one
localStorage key. Reads go through JSON.parse, which throws a SyntaxError on
input that is not valid JSON. The model below implements JSON.parse restricted
to the one value shape the store ever writes, an array of strings: any other
input is a parse failure. The inputs the theorems evaluate it on are invalid
under full JSON as well, so the restriction does not affect any claim. -/

/-- JSON insignificant whitespace. -/
def isJsonWs (c : Char) : Bool :=
  c = ' ' || c = '\n' || c = '\t' || c = '\r'

/-- Drop leading JSON whitespace. -/
def skipWs : List Char → List Char
  | [] => []
  | c :: rest => if isJsonWs c then skipWs rest else c :: rest

/-- Decode a single-character JSON escape; the identity on the quote,
backslash and slash escapes. -/
def unescapeChar (c : Char) : Char :=
  if c = 'n' then '\n'
  else if c = 't' then '\t'
  else if c = 'r' then '\r'
  else c

/-- Parse the body of a JSON string literal, the opening quote already
consumed. The Bool records that the previous character was a backslash.
Returns the decoded characters and the remainder after the closing quote. -/
def parseStringBodyAux : Bool → List Char → Option (List Char × List Char)
  | _, [] => none
  | true, c :: rest =>
    match parseStringBodyAux false rest with
    | none => none
    | some (s, r) => some (unescapeChar c :: s, r)
  | false, c :: rest =>
    if c = '"' then some ([], rest)
    else if c = '\\' then parseStringBodyAux true rest
    else
      match parseStringBodyAux false rest with
      | none => none
      | some (s, r) => some (c :: s, r)

/-- Parse one or more comma-separated JSON string literals followed by the
closing bracket. Fuel bounds the recursion by the input length. -/
def parseElems : Nat → List Char → Option (List String × List Char)
  | 0, _ => none
  | fuel + 1, cs =>
    match skipWs cs with
    | '"' :: rest =>
      match parseStringBodyAux false rest with
      | none => none
      | some (s, r) =>
        match skipWs r with
        | ',' :: r2 =>
          match parseElems fuel r2 with
          | none => none
          | some (strs, r3) => some (String.mk s :: strs, r3)
        | ']' :: r2 => some ([String.mk s], r2)
        | _ => none
    | _ => none

/-- Model of JSON.parse restricted to arrays of strings: some on a
well-formed array, none where JSON.parse would throw (and on valid JSON of
any other shape, which the store never writes). -/
def jsonParseStringList (s : String) : Option (List String) :=
  match skipWs s.data with
  | '[' :: rest =>
    match skipWs rest with
    | ']' :: tail => if skipWs tail = [] then some [] else none
    | _ =>
      match parseElems (s.length + 1) rest with
      | none => none
      | some (strs, tail) => if skipWs tail = [] then some strs else none
  | _ => none

/-- Raw localStorage contents of the two Decision Store keys:
localStorage.getItem returns null (none) when a key is absent. -/
structure RawStorage : Type where
  savedItem : Option String
  dismissedItem : Option String
deriving DecidableEq, Repr

/-- Translation of getSavedEventIds in src/lib/storage.ts, reading the raw
key. When window is undefined the function returns []. A null or empty
stored string is falsy in the source and yields []. Otherwise the source
returns JSON.parse of the stored string, and a JSON.parse failure propagates
to the caller as a thrown SyntaxError, modelled as Except.error. -/
def getSavedEventIds (windowDefined : Bool) (store : RawStorage) :
    Except String (List String) :=
  if !windowDefined then .ok []
  else
    match store.savedItem with
    | none => .ok []
    | some s =>
      if s = "" then .ok []
      else
        match jsonParseStringList s with
        | some l => .ok l
        | none => .error "SyntaxError: unexpected token in JSON"

/-- Translation of getDismissedEventIds in src/lib/storage.ts; same shape as
the saved-events read but on the dismissed-events key. -/
def getDismissedEventIds (windowDefined : Bool) (store : RawStorage) :
    Except String (List String) :=
  if !windowDefined then .ok []
  else
    match store.dismissedItem with
    | none => .ok []
    | some s =>
      if s = "" then .ok []
      else
        match jsonParseStringList s with
        | some l => .ok l
        | none => .error "SyntaxError: unexpected token in JSON"

/-- Sanity check that the parse model accepts what the store writes: a
well-formed array of ids round-trips through the saved-events read. -/
theorem getSavedEventIds_wellformed_example :
    getSavedEventIds true ⟨some "[\"event-1\",\"event-2\"]", none⟩ =
      .ok ["event-1", "event-2"] := by
  rfl

/-- Sanity check: an absent key reads as the empty list. -/
theorem getSavedEventIds_absent_example :
    getSavedEventIds true ⟨none, none⟩ = .ok [] := by
  rfl

/-! ## Decision Store on parsed states

The write operations of src/lib/storage.ts each read the current list, update
it, and write the JSON serialisation back. On well-formed storage (the only
states the writes themselves ever produce) the JSON layer is a faithful
round-trip, so the operations act on the parsed pair of lists directly; the
definitions below are the source bodies at that level. Array.includes is
list membership and Array.filter keeps the elements whose id differs. -/

/-- Parsed contents of the two Decision Store keys. -/
structure StorageState : Type where
  saved : List String
  dismissed : List String
deriving DecidableEq, Repr

/-- Translation of saveEventId: append the id to the saved list unless it is
already included, then persist; the dismissed key is untouched. -/
def saveEventId (s : StorageState) (eventId : String) : StorageState :=
  if eventId ∈ s.saved then s else { s with saved := s.saved ++ [eventId] }

/-- Translation of removeEventId: write back the saved list filtered to the
ids different from the argument; the dismissed key is untouched. -/
def removeEventId (s : StorageState) (eventId : String) : StorageState :=
  { s with saved := s.saved.filter (fun id => id ≠ eventId) }

/-- Translation of isEventSaved: membership in the saved list. -/
def isEventSaved (s : StorageState) (eventId : String) : Bool :=
  decide (eventId ∈ s.saved)

/-- Translation of dismissEventId: append the id to the dismissed list unless
it is already included, then persist; the saved key is untouched. -/
def dismissEventId (s : StorageState) (eventId : String) : StorageState :=
  if eventId ∈ s.dismissed then s else { s with dismissed := s.dismissed ++ [eventId] }

/-- Translation of clearDismissed: localStorage.removeItem on the dismissed
key, after which the read yields []; the saved key is untouched. -/
def clearDismissed (s : StorageState) : StorageState :=
  { s with dismissed := [] }

/-- Membership in the dismissed list, the dismissed-side contains check. -/
def isEventDismissed (s : StorageState) (eventId : String) : Bool :=
  decide (eventId ∈ s.dismissed)

/-- The write operations the storage module exposes, as events for
reachability arguments. -/
inductive StoreOp : Type
  | save (eventId : String)
  | remove (eventId : String)
  | dismiss (eventId : String)
  | clear
deriving DecidableEq, Repr

/-- Apply one storage operation. -/
def applyStoreOp (s : StorageState) : StoreOp → StorageState
  | .save id => saveEventId s id
  | .remove id => removeEventId s id
  | .dismiss id => dismissEventId s id
  | .clear => clearDismissed s

/-- The storage state before any write: both keys absent, both reads []. -/
def initialStorage : StorageState := ⟨[], []⟩

/-- A state reached from empty storage by a sequence of write operations. -/
def runStoreOps (ops : List StoreOp) : StorageState :=
  ops.foldl applyStoreOp initialStorage

/-! ## Swipe Deck Controller (src/components/SwipeStack.tsx)

The SwipeStack component owns currentIndex, exitDirection and the events
prop, and writes decisions through the storage module. The handlers below
are its callbacks; handleSwipeComplete is split into the ordered list of
side effects its body performs and the fold that applies them, so that
effect order is part of the embedding. -/

/-- State owned by the SwipeStack component plus the Decision Store it
writes through. -/
structure AppState : Type where
  events : List Event
  currentIndex : Nat
  exitDirection : Option SwipeDirection
  storage : StorageState
deriving DecidableEq, Repr

/-- One side effect of the SwipeStack handlers, in source order. -/
inductive Effect : Type
  | writeSaved (eventId : String)
  | writeDismissed (eventId : String)
  | advanceCursor
  | clearExitDirection
deriving DecidableEq, Repr

/-- The decision write handleSwipeComplete performs for a direction: right
saves, left dismisses. -/
def decisionEffect (direction : SwipeDirection) (eventId : String) : Effect :=
  match direction with
  | .right => .writeSaved eventId
  | .left => .writeDismissed eventId

/-- Effects of the body of handleSwipeComplete, in the order the source
performs them: look up events at currentIndex; if undefined, return with no
effect; otherwise write the decision for that event, then advance
currentIndex by one, then reset exitDirection to null. -/
def handleSwipeCompleteEffects (s : AppState) (direction : SwipeDirection) :
    List Effect :=
  match s.events.get? s.currentIndex with
  | none => []
  | some ev => [decisionEffect direction ev.id, .advanceCursor, .clearExitDirection]

/-- Apply one effect to the component-plus-storage state. -/
def applyEffect (s : AppState) : Effect → AppState
  | .writeSaved id => { s with storage := saveEventId s.storage id }
  | .writeDismissed id => { s with storage := dismissEventId s.storage id }
  | .advanceCursor => { s with currentIndex := s.currentIndex + 1 }
  | .clearExitDirection => { s with exitDirection := none }

/-- Apply a list of effects left to right. -/
def applyEffects (s : AppState) (es : List Effect) : AppState :=
  es.foldl applyEffect s

/-- Translation of handleSwipeComplete: its effects applied in order. -/
def handleSwipeComplete (s : AppState) (direction : SwipeDirection) : AppState :=
  applyEffects s (handleSwipeCompleteEffects s direction)

/-- Translation of handleDragSwipe, which forwards to handleSwipeComplete. -/
def handleDragSwipe (s : AppState) (direction : SwipeDirection) : AppState :=
  handleSwipeComplete s direction

/-- Translation of handleButtonSwipe: return unchanged when there is no event
at currentIndex or an exit is already in flight; otherwise set exitDirection
to trigger the animated exit. -/
def handleButtonSwipe (s : AppState) (direction : SwipeDirection) : AppState :=
  match s.events.get? s.currentIndex, s.exitDirection with
  | none, _ => s
  | some _, some _ => s
  | some _, none => { s with exitDirection := some direction }

/-- Translation of handleReset: currentIndex back to zero, exitDirection
cleared; the Decision Store is untouched. -/
def handleReset (s : AppState) : AppState :=
  { s with currentIndex := 0, exitDirection := none }

/-- Array.prototype.slice for natural start and stop: the elements from
start up to but excluding stop. -/
def jsSlice {α : Type} (l : List α) (start stop : Nat) : List α :=
  (l.drop start).take (stop - start)

/-- Translation of the visibleEvents computation in SwipeStack:
events.slice(currentIndex, currentIndex + 3). -/
def visibleEvents (events : List Event) (currentIndex : Nat) : List Event :=
  jsSlice events currentIndex (currentIndex + 3)

/-- Translation of hasMoreEvents: currentIndex < events.length. -/
def hasMoreEvents (events : List Event) (currentIndex : Nat) : Bool :=
  currentIndex < events.length

/-! ## Card Motion Engine (src/components/EventCard/index.tsx) -/

/-- The fixed drag threshold of EventCard, in pixels. -/
def SWIPE_THRESHOLD : ℚ := 100

/-- The off-screen exit distance of EventCard, in pixels. -/
def EXIT_X : ℚ := 400

/-- Translation of handleDragEnd: the horizontal release offset strictly
above the threshold reports a rightward drag swipe, strictly below its
negation a leftward one, and otherwise no callback fires and the card snaps
back. Offsets are modelled as rationals; the source comparisons on floats
are exact order comparisons. -/
def handleDragEnd (offsetX : ℚ) : Option SwipeDirection :=
  if offsetX > SWIPE_THRESHOLD then some .right
  else if offsetX < -SWIPE_THRESHOLD then some .left
  else none

/-- A drag release on the top card: handleDragEnd decides whether
onDragSwipe fires, and SwipeStack wires onDragSwipe to handleDragSwipe. -/
def dragRelease (s : AppState) (offsetX : ℚ) : AppState :=
  match handleDragEnd offsetX with
  | none => s
  | some d => handleDragSwipe s d

/-- The effects a drag release performs on the deck and the store. -/
def dragReleaseEffects (s : AppState) (offsetX : ℚ) : List Effect :=
  match handleDragEnd offsetX with
  | none => []
  | some d => handleSwipeCompleteEffects s d

/-- Whether an effect is a Decision Store write. -/
def isDecisionWrite : Effect → Bool
  | .writeSaved _ => true
  | .writeDismissed _ => true
  | .advanceCursor => false
  | .clearExitDirection => false

/-- The two refs EventCard keeps across renders: the exit-in-progress flag
and the last exit direction already animated. -/
structure CardAnimState : Type where
  isAnimating : Bool
  lastExitDirection : Option SwipeDirection
deriving DecidableEq, Repr

/-- Translation of the EventCard layout effect guarding the programmatic
exit: return without starting anything when exitDirection is null, the card
is not on top, an animation is already running, or the same direction was
already animated; otherwise mark the refs and start the exit animation. The
Bool of the result records whether a new exit animation (whose completion
callback later reports the direction) was started. -/
def cardExitEffect (c : CardAnimState) (exitDirection : Option SwipeDirection)
    (isTop : Bool) : CardAnimState × Bool :=
  match exitDirection with
  | none => (c, false)
  | some d =>
    if !isTop then (c, false)
    else if c.isAnimating then (c, false)
    else if c.lastExitDirection = some d then (c, false)
    else ({ isAnimating := true, lastExitDirection := some d }, true)

/-- The inputs that can reach the SwipeStack handlers while browsing,
excluding the explicit reset. -/
inductive StackInput : Type
  | swipeComplete (direction : SwipeDirection)
  | buttonSwipe (direction : SwipeDirection)
  | drag (offsetX : ℚ)

/-- Dispatch one non-reset input to its handler. -/
def stackStep (s : AppState) : StackInput → AppState
  | .swipeComplete d => handleSwipeComplete s d
  | .buttonSwipe d => handleButtonSwipe s d
  | .drag x => dragRelease s x

/-! ## Item Source boundary (src/lib/supabase.ts) -/

/-- Result type of src/lib/supabase.ts: a tagged success or failure. -/
inductive Result (α : Type) (ε : Type) : Type
  | ok (data : α)
  | err (error : ε)
deriving DecidableEq, Repr

/-- DatabaseError of src/lib/supabase.ts. -/
structure DatabaseError : Type where
  message : String
  code : Option String := none
  details : Option String := none
deriving DecidableEq, Repr

/-- Translation of getEventsByIds: fail when Supabase is not configured;
answer ok [] at once for an empty id list; otherwise issue the one select
query, modelled by the backend function. The second component counts the
queries sent to the backend, zero on the two early returns. -/
def getEventsByIds (configured : Bool)
    (backend : List String → Result (List Event) DatabaseError)
    (ids : List String) : Result (List Event) DatabaseError × Nat :=
  if !configured then
    (.err { message := "Supabase is not configured. Check environment variables." }, 0)
  else if ids.length = 0 then
    (.ok [], 0)
  else
    (backend ids, 1)

/-! ## Helper lemmas -/

theorem saveEventId_dismissed (s : StorageState) (x : String) :
    (saveEventId s x).dismissed = s.dismissed := by
  unfold saveEventId; split <;> rfl

theorem dismissEventId_saved (s : StorageState) (x : String) :
    (dismissEventId s x).saved = s.saved := by
  unfold dismissEventId; split <;> rfl

theorem mem_saveEventId_self (s : StorageState) (x : String) :
    x ∈ (saveEventId s x).saved := by
  unfold saveEventId
  split
  · assumption
  · simp

theorem mem_dismissEventId_self (s : StorageState) (x : String) :
    x ∈ (dismissEventId s x).dismissed := by
  unfold dismissEventId
  split
  · assumption
  · simp

theorem saveEventId_of_mem (s : StorageState) (x : String) (h : x ∈ s.saved) :
    saveEventId s x = s := by
  unfold saveEventId
  exact if_pos h

theorem dismissEventId_of_mem (s : StorageState) (x : String)
    (h : x ∈ s.dismissed) : dismissEventId s x = s := by
  unfold dismissEventId
  exact if_pos h

theorem saveEventId_saved_nodup (s : StorageState) (id : String)
    (h1 : s.saved.Nodup) : (saveEventId s id).saved.Nodup := by
  unfold saveEventId
  by_cases h : id ∈ s.saved
  · rw [if_pos h]; exact h1
  · rw [if_neg h]
    refine List.Nodup.append h1 (List.nodup_singleton id) ?_
    intro a ha hb
    simp only [List.mem_singleton] at hb
    subst hb
    exact h ha

theorem dismissEventId_dismissed_nodup (s : StorageState) (id : String)
    (h2 : s.dismissed.Nodup) : (dismissEventId s id).dismissed.Nodup := by
  unfold dismissEventId
  by_cases h : id ∈ s.dismissed
  · rw [if_pos h]; exact h2
  · rw [if_neg h]
    refine List.Nodup.append h2 (List.nodup_singleton id) ?_
    intro a ha hb
    simp only [List.mem_singleton] at hb
    subst hb
    exact h ha

/-- Both persisted lists stay duplicate-free under every storage write. -/
theorem applyStoreOp_nodup (s : StorageState) (op : StoreOp)
    (h1 : s.saved.Nodup) (h2 : s.dismissed.Nodup) :
    (applyStoreOp s op).saved.Nodup ∧ (applyStoreOp s op).dismissed.Nodup := by
  cases op with
  | save id =>
    exact ⟨saveEventId_saved_nodup s id h1,
           by rw [show applyStoreOp s (.save id) = saveEventId s id from rfl,
                  saveEventId_dismissed]; exact h2⟩
  | remove id =>
    exact ⟨h1.filter _, h2⟩
  | dismiss id =>
    exact ⟨by rw [show applyStoreOp s (.dismiss id) = dismissEventId s id from rfl,
                  dismissEventId_saved]; exact h1,
           dismissEventId_dismissed_nodup s id h2⟩
  | clear =>
    exact ⟨h1, List.nodup_nil⟩

theorem foldl_storeOps_nodup (ops : List StoreOp) :
    ∀ s : StorageState, s.saved.Nodup → s.dismissed.Nodup →
      (ops.foldl applyStoreOp s).saved.Nodup ∧
      (ops.foldl applyStoreOp s).dismissed.Nodup := by
  induction ops with
  | nil => intro s h1 h2; exact ⟨h1, h2⟩
  | cons op rest ih =>
    intro s h1 h2
    have h := applyStoreOp_nodup s op h1 h2
    exact ih (applyStoreOp s op) h.1 h.2

/-! ## Claim C1 -/

/-- C1: the claim states that a string stored under the saved-events key
that is not valid JSON makes getSavedEventIds return [] rather than
propagate a parse failure. The code passes the stored string straight to
JSON.parse with no try/catch, so the SyntaxError propagates to the caller:
evaluated at the stored value from the unit test, the read raises instead of
returning []. The spec (and the title of the unit test) state the tolerant
behaviour as the intent, so this is a bug in the code. -/
theorem getSavedEventIds_malformed_raises :
    getSavedEventIds true ⟨some "not valid json", none⟩ =
      .error "SyntaxError: unexpected token in JSON" ∧
    getSavedEventIds true ⟨some "not valid json", none⟩ ≠ .ok [] := by
  refine ⟨rfl, ?_⟩
  intro h
  exact Except.noConfusion h

/-! ## Claim C4 -/

/-- C4 as frozen is false: when the id is already a member of the saved set,
add is a no-op and remove then deletes the pre-existing membership, so the
pair does not return the set to its prior membership. Concretely from the
state whose saved list is exactly the one id. -/
theorem add_remove_loses_preexisting_member_cex :
    "event-1" ∈ (StorageState.mk ["event-1"] []).saved ∧
    "event-1" ∉
      (removeEventId (saveEventId ⟨["event-1"], []⟩ "event-1") "event-1").saved := by
  constructor
  · simp
  · simp [saveEventId, removeEventId]

/-- C4 amended: add of an id followed by remove of the same id always leaves
the saved list equal to the prior list filtered of that id, keeping every
other element and their relative order, and leaves the dismissed list
untouched; when the id was not already a member this returns the store to
exactly its prior state. -/
theorem add_remove_round_trip (s : StorageState) (id : String) :
    (removeEventId (saveEventId s id) id).saved =
      s.saved.filter (fun x => x ≠ id) ∧
    (removeEventId (saveEventId s id) id).dismissed = s.dismissed ∧
    (id ∉ s.saved → removeEventId (saveEventId s id) id = s) := by
  unfold saveEventId removeEventId
  by_cases h : id ∈ s.saved
  · rw [if_pos h]
    exact ⟨rfl, rfl, fun hn => absurd h hn⟩
  · rw [if_neg h]
    have h1 : s.saved.filter (fun x => x ≠ id) = s.saved :=
      List.filter_eq_self.mpr (fun a ha => by
        simp only [ne_eq, decide_eq_true_eq]
        intro hEq
        exact h (hEq ▸ ha))
    have hfilter : (s.saved ++ [id]).filter (fun x => x ≠ id) = s.saved := by
      rw [List.filter_append]
      have h2 : ([id].filter (fun x => x ≠ id) : List String) = [] := by simp
      rw [h1, h2, List.append_nil]
    refine ⟨?_, rfl, fun _ => ?_⟩
    · rw [show ({ s with saved := s.saved ++ [id] } : StorageState).saved =
            s.saved ++ [id] from rfl, hfilter, h1]
    · show ({ s with saved := (s.saved ++ [id]).filter (fun x => x ≠ id) } :
          StorageState) = s
      rw [hfilter]

/-- Witness for the amended C4 at a concrete store where the id is fresh. -/
theorem add_remove_round_trip_witness :
    ("event-2" ∉ (StorageState.mk ["event-1"] ["event-3"]).saved) ∧
    removeEventId (saveEventId ⟨["event-1"], ["event-3"]⟩ "event-2") "event-2" =
      ⟨["event-1"], ["event-3"]⟩ :=
  ⟨by decide,
   (add_remove_round_trip ⟨["event-1"], ["event-3"]⟩ "event-2").2.2 (by decide)⟩

/-! ## Claim C5 -/

/-- C5: adding the same id twice in a row yields exactly the state of adding
it once, for the saved and for the dismissed set, and every storage state
reachable from empty storage through the write operations has duplicate-free
saved and dismissed lists. -/
theorem add_idempotent_and_no_duplicates :
    (∀ (s : StorageState) (id : String),
        saveEventId (saveEventId s id) id = saveEventId s id ∧
        dismissEventId (dismissEventId s id) id = dismissEventId s id) ∧
    (∀ ops : List StoreOp,
        (runStoreOps ops).saved.Nodup ∧ (runStoreOps ops).dismissed.Nodup) := by
  constructor
  · intro s id
    constructor
    · exact saveEventId_of_mem _ _ (mem_saveEventId_self s id)
    · exact dismissEventId_of_mem _ _ (mem_dismissEventId_self s id)
  · intro ops
    exact foldl_storeOps_nodup ops initialStorage List.nodup_nil List.nodup_nil

/-! ## Claim C9 -/

/-- C9: the two sets are independent. Adding to the saved set never changes
the dismissed list nor the dismissed-side contains check; clearing the
dismissed set leaves the saved list unchanged; and from any state, saving
then dismissing the same id leaves it a member of both sets at once. -/
theorem saved_dismissed_independent (s : StorageState) (x y : String) :
    (saveEventId s x).dismissed = s.dismissed ∧
    isEventDismissed (saveEventId s x) y = isEventDismissed s y ∧
    (clearDismissed s).saved = s.saved ∧
    x ∈ (dismissEventId (saveEventId s x) x).saved ∧
    x ∈ (dismissEventId (saveEventId s x) x).dismissed := by
  refine ⟨saveEventId_dismissed s x, ?_, rfl, ?_, ?_⟩
  · unfold isEventDismissed
    rw [saveEventId_dismissed]
  · rw [dismissEventId_saved]
    exact mem_saveEventId_self s x
  · exact mem_dismissEventId_self _ x

/-! ## Claim C10 -/

/-- C10: with configuration present, getEventsByIds on the empty id list
answers success with the empty event list at once: zero queries reach the
backend, and the result is ok [] whatever the backend would have answered,
so no DatabaseError can arise. -/
theorem getEventsByIds_empty_ids_no_query
    (backend : List String → Result (List Event) DatabaseError) :
    getEventsByIds true backend [] = (.ok [], 0) :=
  rfl

/-! ## Deck controller lemmas -/

theorem handleSwipeCompleteEffects_eq (s : AppState) (d : SwipeDirection)
    (ev : Event) (h : s.events.get? s.currentIndex = some ev) :
    handleSwipeCompleteEffects s d =
      [decisionEffect d ev.id, .advanceCursor, .clearExitDirection] := by
  unfold handleSwipeCompleteEffects
  rw [h]

theorem handleSwipeComplete_eq (s : AppState) (d : SwipeDirection)
    (ev : Event) (h : s.events.get? s.currentIndex = some ev) :
    handleSwipeComplete s d =
      { events := s.events
        currentIndex := s.currentIndex + 1
        exitDirection := none
        storage := match d with
                   | .right => saveEventId s.storage ev.id
                   | .left => dismissEventId s.storage ev.id } := by
  unfold handleSwipeComplete
  rw [handleSwipeCompleteEffects_eq s d ev h]
  cases d <;> rfl

theorem handleSwipeComplete_exhausted (s : AppState) (d : SwipeDirection)
    (h : s.events.get? s.currentIndex = none) :
    handleSwipeComplete s d = s := by
  unfold handleSwipeComplete handleSwipeCompleteEffects
  rw [h]
  rfl

theorem handleSwipeComplete_currentIndex (s : AppState) (d : SwipeDirection)
    (ev : Event) (h : s.events.get? s.currentIndex = some ev) :
    (handleSwipeComplete s d).currentIndex = s.currentIndex + 1 := by
  rw [handleSwipeComplete_eq s d ev h]

theorem handleSwipeComplete_cursor_mono (s : AppState) (d : SwipeDirection) :
    s.currentIndex ≤ (handleSwipeComplete s d).currentIndex := by
  cases hg : s.events.get? s.currentIndex with
  | none => rw [handleSwipeComplete_exhausted s d hg]
  | some ev =>
    rw [handleSwipeComplete_currentIndex s d ev hg]
    exact Nat.le_succ _

theorem handleButtonSwipe_currentIndex (s : AppState) (d : SwipeDirection) :
    (handleButtonSwipe s d).currentIndex = s.currentIndex := by
  unfold handleButtonSwipe
  split <;> rfl

theorem handleButtonSwipe_storage (s : AppState) (d : SwipeDirection) :
    (handleButtonSwipe s d).storage = s.storage := by
  unfold handleButtonSwipe
  split <;> rfl

/-- The cursor is non-decreasing under every non-reset input. -/
theorem stackStep_cursor_mono (s : AppState) (i : StackInput) :
    s.currentIndex ≤ (stackStep s i).currentIndex := by
  cases i with
  | swipeComplete d => exact handleSwipeComplete_cursor_mono s d
  | buttonSwipe d =>
    show s.currentIndex ≤ (handleButtonSwipe s d).currentIndex
    rw [handleButtonSwipe_currentIndex]
  | drag x =>
    show s.currentIndex ≤ (dragRelease s x).currentIndex
    unfold dragRelease
    split
    · exact le_refl _
    · exact handleSwipeComplete_cursor_mono s _

/-! ## Claim C2 -/

/-- C2: on a non-exhausted deck a commit performs, in source order, first
the Decision Store write for the current event (save on right, dismiss on
left), then the cursor advance: the write strictly precedes the advance in
the effect list. Each such commit advances the cursor by exactly one, the
cursor is non-decreasing under every non-reset input, and only reset sets it
back to zero. -/
theorem commit_records_before_advance (s : AppState) (d : SwipeDirection)
    (ev : Event) (h : s.events.get? s.currentIndex = some ev) :
    handleSwipeCompleteEffects s d =
      [decisionEffect d ev.id, .advanceCursor, .clearExitDirection] ∧
    (handleSwipeComplete s d).currentIndex = s.currentIndex + 1 ∧
    (∀ (s2 : AppState) (i : StackInput),
        s2.currentIndex ≤ (stackStep s2 i).currentIndex) ∧
    (∀ s2 : AppState, (handleReset s2).currentIndex = 0) :=
  ⟨handleSwipeCompleteEffects_eq s d ev h,
   handleSwipeComplete_currentIndex s d ev h,
   stackStep_cursor_mono,
   fun _ => rfl⟩

/-- Witness for C2 on a one-card deck with empty storage. -/
theorem commit_records_before_advance_witness :
    ([testEvent "event-1"].get? 0 = some (testEvent "event-1")) ∧
    handleSwipeCompleteEffects
        ⟨[testEvent "event-1"], 0, none, initialStorage⟩ .right =
      [Effect.writeSaved "event-1", .advanceCursor, .clearExitDirection] ∧
    (handleSwipeComplete
        ⟨[testEvent "event-1"], 0, none, initialStorage⟩ .right).currentIndex = 1 :=
  ⟨rfl,
   (commit_records_before_advance ⟨[testEvent "event-1"], 0, none, initialStorage⟩
      .right (testEvent "event-1") rfl).1,
   (commit_records_before_advance ⟨[testEvent "event-1"], 0, none, initialStorage⟩
      .right (testEvent "event-1") rfl).2.1⟩

/-! ## Claim C3 -/

/-- C3: the visible window is the slice of the item list from the cursor,
of length min(3, len - c) with truncated subtraction, its entries are the
items of the list at offsets c, c+1, c+2 in order, and it is empty once the
cursor reaches the length. -/
theorem visibleEvents_window_spec (events : List Event) (c : Nat) :
    (visibleEvents events c).length = min 3 (events.length - c) ∧
    (∀ i : Nat, i < 3 →
        (visibleEvents events c).get? i = events.get? (c + i)) ∧
    (events.length ≤ c → visibleEvents events c = []) := by
  unfold visibleEvents jsSlice
  have h3 : c + 3 - c = 3 := by omega
  rw [h3]
  refine ⟨?_, ?_, ?_⟩
  · rw [List.length_take, List.length_drop]
  · intro i hi
    rw [List.get?_take hi, List.get?_drop]
  · intro h
    rw [List.drop_eq_nil_of_le h]
    rfl

/-- Witness for C3 on a four-item list, at an interior cursor and past the
end. -/
theorem visibleEvents_window_spec_witness :
    ((0 : Nat) < 3) ∧
    (visibleEvents [testEvent "a", testEvent "b", testEvent "c", testEvent "d"]
        1).get? 0 =
      [testEvent "a", testEvent "b", testEvent "c", testEvent "d"].get? (1 + 0) ∧
    ([testEvent "a", testEvent "b", testEvent "c", testEvent "d"].length ≤ 5) ∧
    visibleEvents [testEvent "a", testEvent "b", testEvent "c", testEvent "d"]
        5 = [] :=
  ⟨by decide,
   (visibleEvents_window_spec
      [testEvent "a", testEvent "b", testEvent "c", testEvent "d"] 1).2.1 0
      (by decide),
   by decide,
   (visibleEvents_window_spec
      [testEvent "a", testEvent "b", testEvent "c", testEvent "d"] 5).2.2
      (by decide)⟩

/-! ## Claim C8 -/

/-- C8: on an exhausted deck (cursor at or past the length) a commit is a
no-op: the handler is total so nothing is thrown, the state including cursor
and Decision Store is returned unchanged, and the effect list is empty. -/
theorem commit_exhausted_noop (s : AppState) (d : SwipeDirection)
    (h : s.events.length ≤ s.currentIndex) :
    handleSwipeComplete s d = s ∧ handleSwipeCompleteEffects s d = [] := by
  have hg : s.events.get? s.currentIndex = none := List.get?_eq_none.mpr h
  refine ⟨handleSwipeComplete_exhausted s d hg, ?_⟩
  unfold handleSwipeCompleteEffects
  rw [hg]

/-- Witness for C8 on an already exhausted one-card deck. -/
theorem commit_exhausted_noop_witness :
    ([testEvent "event-1"].length ≤ 1) ∧
    handleSwipeComplete ⟨[testEvent "event-1"], 1, none, initialStorage⟩ .left =
      ⟨[testEvent "event-1"], 1, none, initialStorage⟩ :=
  ⟨by decide,
   (commit_exhausted_noop ⟨[testEvent "event-1"], 1, none, initialStorage⟩ .left
      (by decide)).1⟩

/-! ## Claim C6 -/

/-- C6: releasing a drag with offset magnitude at or below the 100px
threshold fires no callback and leaves the whole state unchanged, while an
offset strictly above the threshold in magnitude fires exactly one commit in
the direction of its sign: rightward writes the save, leftward writes the
dismiss, each with exactly one Decision Store write and a single cursor
advance. -/
theorem drag_release_threshold_spec (s : AppState) (ev : Event) (x : ℚ)
    (h : s.events.get? s.currentIndex = some ev) :
    (|x| ≤ SWIPE_THRESHOLD → handleDragEnd x = none ∧ dragRelease s x = s) ∧
    (SWIPE_THRESHOLD < x →
        handleDragEnd x = some .right ∧
        dragReleaseEffects s x =
          [Effect.writeSaved ev.id, .advanceCursor, .clearExitDirection] ∧
        (dragReleaseEffects s x).countP isDecisionWrite = 1 ∧
        (dragRelease s x).storage = saveEventId s.storage ev.id ∧
        (dragRelease s x).currentIndex = s.currentIndex + 1) ∧
    (x < -SWIPE_THRESHOLD →
        handleDragEnd x = some .left ∧
        dragReleaseEffects s x =
          [Effect.writeDismissed ev.id, .advanceCursor, .clearExitDirection] ∧
        (dragReleaseEffects s x).countP isDecisionWrite = 1 ∧
        (dragRelease s x).storage = dismissEventId s.storage ev.id ∧
        (dragRelease s x).currentIndex = s.currentIndex + 1) := by
  refine ⟨?_, ?_, ?_⟩
  · intro habs
    obtain ⟨hlo, hhi⟩ := abs_le.mp habs
    have hend : handleDragEnd x = none := by
      unfold handleDragEnd
      rw [if_neg (by linarith), if_neg (by linarith)]
    refine ⟨hend, ?_⟩
    unfold dragRelease
    rw [hend]
  · intro hx
    have hend : handleDragEnd x = some .right := by
      unfold handleDragEnd
      rw [if_pos hx]
    have heff : dragReleaseEffects s x =
        [Effect.writeSaved ev.id, .advanceCursor, .clearExitDirection] := by
      unfold dragReleaseEffects
      rw [hend]
      exact handleSwipeCompleteEffects_eq s .right ev h
    have hrel : dragRelease s x = handleSwipeComplete s .right := by
      unfold dragRelease
      rw [hend]
      rfl
    refine ⟨hend, heff, by rw [heff]; rfl, ?_, ?_⟩
    · rw [hrel, handleSwipeComplete_eq s .right ev h]
    · rw [hrel, handleSwipeComplete_currentIndex s .right ev h]
  · intro hx
    have hend : handleDragEnd x = some .left := by
      unfold handleDragEnd
      have hgt : ¬ x > SWIPE_THRESHOLD := by
        unfold SWIPE_THRESHOLD at *
        linarith
      rw [if_neg hgt, if_pos hx]
    have heff : dragReleaseEffects s x =
        [Effect.writeDismissed ev.id, .advanceCursor, .clearExitDirection] := by
      unfold dragReleaseEffects
      rw [hend]
      exact handleSwipeCompleteEffects_eq s .left ev h
    have hrel : dragRelease s x = handleSwipeComplete s .left := by
      unfold dragRelease
      rw [hend]
      rfl
    refine ⟨hend, heff, by rw [heff]; rfl, ?_, ?_⟩
    · rw [hrel, handleSwipeComplete_eq s .left ev h]
    · rw [hrel, handleSwipeComplete_currentIndex s .left ev h]

/-- Witness for C6: an 80px release snaps back with no decision, and a
150px rightward release on a fresh one-card deck commits a single save. -/
theorem drag_release_threshold_spec_witness :
    (|(80 : ℚ)| ≤ SWIPE_THRESHOLD) ∧
    handleDragEnd 80 = none ∧
    dragRelease ⟨[testEvent "event-1"], 0, none, initialStorage⟩ 80 =
      ⟨[testEvent "event-1"], 0, none, initialStorage⟩ ∧
    (SWIPE_THRESHOLD < (150 : ℚ)) ∧
    handleDragEnd 150 = some .right ∧
    (dragRelease ⟨[testEvent "event-1"], 0, none, initialStorage⟩ 150).storage =
      saveEventId initialStorage "event-1" :=
  ⟨by norm_num [SWIPE_THRESHOLD],
   ((drag_release_threshold_spec ⟨[testEvent "event-1"], 0, none, initialStorage⟩
      (testEvent "event-1") 80 rfl).1 (by norm_num [SWIPE_THRESHOLD])).1,
   ((drag_release_threshold_spec ⟨[testEvent "event-1"], 0, none, initialStorage⟩
      (testEvent "event-1") 80 rfl).1 (by norm_num [SWIPE_THRESHOLD])).2,
   by norm_num [SWIPE_THRESHOLD],
   ((drag_release_threshold_spec ⟨[testEvent "event-1"], 0, none, initialStorage⟩
      (testEvent "event-1") 150 rfl).2.1 (by norm_num [SWIPE_THRESHOLD])).1,
   ((drag_release_threshold_spec ⟨[testEvent "event-1"], 0, none, initialStorage⟩
      (testEvent "event-1") 150 rfl).2.1
      (by norm_num [SWIPE_THRESHOLD])).2.2.2.1⟩

/-! ## Claim C7 -/

/-- C7: while an exit is in flight (exitDirection set) every further button
or keyboard swipe request is ignored, a whole burst of such requests leaves
the state untouched, the card layout effect never starts a second animation
while one is running nor re-runs a completed one for the same direction, and
the single completion callback performs exactly one Decision Store write,
advances the cursor by exactly one and clears the in-flight flag. -/
theorem programmatic_swipe_single_commit (s : AppState) (d : SwipeDirection)
    (ev : Event) (hev : s.events.get? s.currentIndex = some ev)
    (hex : s.exitDirection = some d) :
    (∀ d2, handleButtonSwipe s d2 = s) ∧
    (∀ bs : List SwipeDirection, bs.foldl handleButtonSwipe s = s) ∧
    (∀ (c : CardAnimState) (d2 : SwipeDirection) (t : Bool),
        c.isAnimating = true → cardExitEffect c (some d2) t = (c, false)) ∧
    (∀ d2 : SwipeDirection,
        (cardExitEffect ⟨false, none⟩ (some d2) true).2 = true ∧
        (cardExitEffect ⟨false, some d2⟩ (some d2) true).2 = false) ∧
    ((handleSwipeComplete s d).currentIndex = s.currentIndex + 1 ∧
     (handleSwipeCompleteEffects s d).countP isDecisionWrite = 1 ∧
     (handleSwipeComplete s d).exitDirection = none) := by
  have hignore : ∀ d2, handleButtonSwipe s d2 = s := by
    intro d2
    unfold handleButtonSwipe
    rw [hex]
    cases s.events.get? s.currentIndex <;> rfl
  refine ⟨hignore, ?_, ?_, ?_, ?_, ?_, ?_⟩
  · intro bs
    induction bs with
    | nil => rfl
    | cons b rest ih =>
      rw [List.foldl_cons, hignore b]
      exact ih
  · intro c d2 t hA
    cases t <;> simp [cardExitEffect, hA]
  · intro d2
    exact ⟨rfl, by simp [cardExitEffect]⟩
  · exact handleSwipeComplete_currentIndex s d ev hev
  · rw [handleSwipeCompleteEffects_eq s d ev hev]
    cases d <;> rfl
  · rw [handleSwipeComplete_eq s d ev hev]

/-- Witness for C7 on a one-card deck with a rightward exit in flight. -/
theorem programmatic_swipe_single_commit_witness :
    ([testEvent "event-1"].get? 0 = some (testEvent "event-1")) ∧
    ((some SwipeDirection.right : Option SwipeDirection) = some .right) ∧
    handleButtonSwipe
        ⟨[testEvent "event-1"], 0, some .right, initialStorage⟩ .left =
      ⟨[testEvent "event-1"], 0, some .right, initialStorage⟩ ∧
    (handleSwipeComplete
        ⟨[testEvent "event-1"], 0, some .right, initialStorage⟩
        .right).currentIndex = 1 :=
  ⟨rfl, rfl,
   (programmatic_swipe_single_commit
      ⟨[testEvent "event-1"], 0, some .right, initialStorage⟩ .right
      (testEvent "event-1") rfl rfl).1 .left,
   (programmatic_swipe_single_commit
      ⟨[testEvent "event-1"], 0, some .right, initialStorage⟩ .right
      (testEvent "event-1") rfl rfl).2.2.2.2.1⟩

end EventSpark
